import Mathlib

/-!
Verification of the aecache layered cache: the in-process memory tier
(`memoryCache` in memory.go) and the tier combination (`combinedCache`).
Go byte slices become `List Nat`, `time.Time` and `time.Duration` become
`Int` (one logical instant `now` per top-level operation), Go maps become
extensional `Key → Option _` maps, and the `error` results become
`Option CacheErr` / `Except CacheErr`.  A tier of the combination is an
arbitrary implementation of the `Cache` interface, packed as a state type
with the three operations; each combined operation also returns the trace
of tier operations it performed, with the absolute tier index.
-/

namespace Aecache

abbrev Key := String
abbrev Value := List Nat
abbrev Time := Int
abbrev Duration := Int

/-- Errors of the package: the distinguished `ErrCacheMiss` sentinel
(`errors.New` gives it its own identity, so a backend error is never
equal to it) and any other backend error, carried with its message. -/
inductive CacheErr where
  | cacheMiss : CacheErr
  | backend : String → CacheErr
deriving DecidableEq

/-- The `Error()` string of an error: `ErrCacheMiss` was built from the
message "cache: miss". -/
def errString : CacheErr → String
  | CacheErr.cacheMiss => "cache: miss"
  | CacheErr.backend s => s

/-- The two maps of `memoryCache` (memory.go): `values` and `expires`,
as extensional maps. -/
structure MemoryCache where
  values : Key → Option Value
  expires : Key → Option Time

/-- `newMemoryCache`: both maps start empty. -/
def newMemoryCache : MemoryCache where
  values := fun _ => none
  expires := fun _ => none

/-- `memoryCache.Set` (memory.go lines 26-35): a non-positive expiration
is a no-op returning nil; otherwise both maps are written at `key`,
`expires[key] = time.Now().Add(expiration)`. -/
def memorySet (a : MemoryCache) (now : Time) (key : Key) (value : Value)
    (expiration : Duration) : MemoryCache × Option CacheErr :=
  if expiration ≤ 0 then (a, none)
  else
    ({ values := fun k => if k = key then some value else a.values k,
       expires := fun k => if k = key then some (now + expiration) else a.expires k },
     none)

/-- `memoryCache.Get` (memory.go lines 38-52): a key absent from either
map is a miss with no state change; a present key whose expiration is
strictly before now (`expires.Before(time.Now())`) is deleted from both
maps and is a miss; otherwise the value and expiration are returned. -/
def memoryGet (a : MemoryCache) (now : Time) (key : Key) :
    MemoryCache × Except CacheErr (Value × Time) :=
  match a.values key, a.expires key with
  | some value, some expires =>
    if expires < now then
      ({ values := fun k => if k = key then none else a.values k,
         expires := fun k => if k = key then none else a.expires k },
       Except.error CacheErr.cacheMiss)
    else (a, Except.ok (value, expires))
  | _, _ => (a, Except.error CacheErr.cacheMiss)

/-- `memoryCache.Clean` (memory.go lines 55-65): every key of the
`expires` map whose expiration is strictly before now is deleted from
both maps; the iteration over the map with per-entry deletion acts
pointwise. -/
def memoryClean (a : MemoryCache) (now : Time) : MemoryCache × Option CacheErr :=
  ({ values := fun k =>
       match a.expires k with
       | some expires => if expires < now then none else a.values k
       | none => a.values k,
     expires := fun k =>
       match a.expires k with
       | some expires => if expires < now then none else some expires
       | none => none },
   none)

/-- One implementation of the `Cache` interface, packed as its state type,
its three operations and its current state.  The combined cache holds a
list of these. -/
structure PackedCache where
  State : Type
  set : State → Time → Key → Value → Duration → State × Option CacheErr
  get : State → Time → Key → State × Except CacheErr (Value × Time)
  clean : State → Time → State × Option CacheErr
  st : State

/-- The memory tier as a packed cache. -/
def memoryPacked (m : MemoryCache) : PackedCache where
  State := MemoryCache
  set := memorySet
  get := memoryGet
  clean := memoryClean
  st := m

/-- A trace event: which operation the combination invoked on the tier at
the given absolute index. -/
inductive Ev where
  | getEv : Nat → Ev
  | setEv : Nat → Ev
  | cleanEv : Nat → Ev
deriving DecidableEq

/-- Shift a trace event one tier deeper, for the recursive tail call on
`a[1:]`. -/
def Ev.bump : Ev → Ev
  | Ev.getEv i => Ev.getEv (i + 1)
  | Ev.setEv i => Ev.setEv (i + 1)
  | Ev.cleanEv i => Ev.cleanEv (i + 1)

/-- `combinedCache.Set`: updates all caches from fastest to slowest,
returning the first error without attempting subsequent tiers. -/
def combinedSet : List PackedCache → Time → Key → Value → Duration →
    List PackedCache × List Ev × Option CacheErr
  | [], _, _, _, _ => ([], [], none)
  | c :: rest, now, key, value, expiration =>
    match c.set c.st now key value expiration with
    | (s1, some err) => ({ c with st := s1 } :: rest, [Ev.setEv 0], some err)
    | (s1, none) =>
      let r := combinedSet rest now key value expiration
      ({ c with st := s1 } :: r.1, Ev.setEv 0 :: r.2.1.map Ev.bump, r.2.2)

/-- `combinedCache.Get`: an empty combination misses; otherwise tier 0 is
consulted, a hit or a non-miss error returns at once, and a miss recurses
over the remaining tiers, writing a successful result back into tier 0
with the remaining lifetime `expires.Sub(time.Now())` and failing when
that write fails. -/
def combinedGet : List PackedCache → Time → Key →
    List PackedCache × List Ev × Except CacheErr (Value × Time)
  | [], _, _ => ([], [], Except.error CacheErr.cacheMiss)
  | c :: rest, now, key =>
    match c.get c.st now key with
    | (s1, Except.ok ve) => ({ c with st := s1 } :: rest, [Ev.getEv 0], Except.ok ve)
    | (s1, Except.error e) =>
      if e ≠ CacheErr.cacheMiss then
        ({ c with st := s1 } :: rest, [Ev.getEv 0], Except.error e)
      else
        match combinedGet rest now key with
        | (rest2, tr, Except.ok (value, expires)) =>
          match c.set s1 now key value (expires - now) with
          | (s2, some err) =>
            ({ c with st := s2 } :: rest2,
             (Ev.getEv 0 :: tr.map Ev.bump) ++ [Ev.setEv 0], Except.error err)
          | (s2, none) =>
            ({ c with st := s2 } :: rest2,
             (Ev.getEv 0 :: tr.map Ev.bump) ++ [Ev.setEv 0],
             Except.ok (value, expires))
        | (rest2, tr, Except.error e2) =>
          ({ c with st := s1 } :: rest2, Ev.getEv 0 :: tr.map Ev.bump,
           Except.error e2)

/-- The loop of `combinedCache.Clean`: every tier is cleaned, the failing
tiers' error strings are collected in order. -/
def combinedCleanLoop : List PackedCache → Time →
    List PackedCache × List Ev × List String
  | [], _ => ([], [], [])
  | c :: rest, now =>
    match c.clean c.st now with
    | (s1, e) =>
      let r := combinedCleanLoop rest now
      ({ c with st := s1 } :: r.1, Ev.cleanEv 0 :: r.2.1.map Ev.bump,
       (match e with
        | some err => [errString err]
        | none => []) ++ r.2.2)

/-- `combinedCache.Clean`: when any tier failed, the collected messages
are reported together as `cache: <n> error(s)` followed by the joined
messages; otherwise nil. -/
def combinedClean (tiers : List PackedCache) (now : Time) :
    List PackedCache × List Ev × Option String :=
  let r := combinedCleanLoop tiers now
  (r.1, r.2.1,
   if r.2.2.length > 0 then
     some ("cache: " ++ toString r.2.2.length ++ " error(s)\n" ++
       String.intercalate "\n" r.2.2)
   else none)

/-- A configurable tier used as a concrete instance of the `Cache`
interface in witnesses: it answers every Get with `g`, every Set with
`s` and every Clean with `cl`. -/
def stubTier (g : Except CacheErr (Value × Time)) (s : Option CacheErr)
    (cl : Option CacheErr) : PackedCache where
  State := Unit
  set := fun u _ _ _ _ => (u, s)
  get := fun u _ _ => (u, g)
  clean := fun u _ => (u, cl)
  st := ()

def tierBoom : PackedCache :=
  stubTier (Except.error (CacheErr.backend "boom")) none none

def tierHit : PackedCache := stubTier (Except.ok ([7], 10)) none none

/-- A tier that misses on Get and fails every Set: used to exercise the
refill-write failure path of the combined Get. -/
def tierRefillFail : PackedCache :=
  stubTier (Except.error CacheErr.cacheMiss)
    (some (CacheErr.backend "refill failed")) none

/-- The two maps of a memory tier agree at `key` on which keys are
present. -/
def lockstepAt (m : MemoryCache) (key : Key) : Prop :=
  m.values key = none ↔ m.expires key = none

/-- A memory tier holding one entry for "k": value [1], expiration 5. -/
def memAtNow : MemoryCache where
  values := fun k => if k = "k" then some [1] else none
  expires := fun k => if k = "k" then some 5 else none

/-- A memory tier populated through Set at time 0: "k" holds [1] until
time 10. -/
def memPre : MemoryCache := (memorySet newMemoryCache 0 "k" [1] 10).1

/-- A tier whose Clean fails with a backend error. -/
def tierCleanFail : PackedCache :=
  stubTier (Except.error CacheErr.cacheMiss) none
    (some (CacheErr.backend "gc failed"))

/-- A tier whose Set fails with a backend error. -/
def tierSetFail : PackedCache :=
  stubTier (Except.error CacheErr.cacheMiss)
    (some (CacheErr.backend "write failed")) none

/-- One memory-tier operation, with the logical instant it runs at. -/
inductive MemOp where
  | setOp : Time → Key → Value → Duration → MemOp
  | getOp : Time → Key → MemOp
  | cleanOp : Time → MemOp

/-- The state reached by running one memory-tier operation. -/
def applyMemOp : MemOp → MemoryCache → MemoryCache
  | MemOp.setOp now key value expiration, m =>
    (memorySet m now key value expiration).1
  | MemOp.getOp now key, m => (memoryGet m now key).1
  | MemOp.cleanOp now, m => (memoryClean m now).1

/-- The state reached by running a sequence of memory-tier operations. -/
def applyMemOps : List MemOp → MemoryCache → MemoryCache
  | [], m => m
  | op :: ops, m => applyMemOps ops (applyMemOp op m)

/-- C9: On the empty tier list, the combined Get misses for every key, and
the combined Set and Clean return success while changing nothing. -/
theorem combined_empty_ops (now : Time) (key : Key) (value : Value)
    (expiration : Duration) :
    combinedGet [] now key = ([], [], Except.error CacheErr.cacheMiss) ∧
    combinedSet [] now key value expiration = ([], [], none) ∧
    combinedClean [] now = ([], [], none) :=
  ⟨rfl, rfl, rfl⟩

/-- C1: if tier 0's Get returns an error other than the cache-miss
sentinel, the combined Get returns that error unchanged, the only tier
operation performed is the single Get on tier 0 (so no lower tier is
consulted), and the lower tiers are untouched. -/
theorem combinedGet_failfast (c : PackedCache) (rest : List PackedCache)
    (now : Time) (key : Key) (e : CacheErr)
    (hget : (c.get c.st now key).2 = Except.error e)
    (hne : e ≠ CacheErr.cacheMiss) :
    combinedGet (c :: rest) now key =
      ({ c with st := (c.get c.st now key).1 } :: rest, [Ev.getEv 0],
       Except.error e) := by
  have hpair : c.get c.st now key = ((c.get c.st now key).1, Except.error e) := by
    rw [← hget]
  rw [combinedGet, hpair]
  simp [hne]

/-- C1 witness: with a tier 0 whose Get fails with the backend error
"boom" over a lower tier that would hit, the combined Get returns the
backend error, traces only the tier-0 Get, and leaves tier 1 alone. -/
theorem combinedGet_failfast_witness :
    combinedGet [tierBoom, tierHit] 0 "k" =
      ({ tierBoom with st := (tierBoom.get tierBoom.st 0 "k").1 } :: [tierHit],
       [Ev.getEv 0], Except.error (CacheErr.backend "boom")) :=
  combinedGet_failfast tierBoom [tierHit] 0 "k" (CacheErr.backend "boom") rfl
    (by decide)

/-- The memory tier's Set never fails. -/
theorem memorySet_err (a : MemoryCache) (now : Time) (key : Key) (value : Value)
    (expiration : Duration) : (memorySet a now key value expiration).2 = none := by
  rw [memorySet]
  split <;> rfl

/-- After a memory-tier miss at a key whose two maps are in lockstep, the
resulting state holds the key in neither map. -/
theorem memoryGet_miss_state (m : MemoryCache) (now : Time) (key : Key)
    (hls : lockstepAt m key)
    (hmiss : (memoryGet m now key).2 = Except.error CacheErr.cacheMiss) :
    (memoryGet m now key).1.values key = none ∧
    (memoryGet m now key).1.expires key = none := by
  rcases hv : m.values key with _ | v <;> rcases he : m.expires key with _ | e
  · simp [memoryGet, hv, he]
  · exact absurd (hls.mp hv) (by simp [he])
  · exact absurd (hls.mpr he) (by simp [hv])
  · by_cases hlt : e < now
    · simp [memoryGet, hv, he, hlt]
    · exfalso
      simp [memoryGet, hv, he, hlt] at hmiss

/-- One step of the combined Get in the refill case: tier 0 misses, the
recursion over the lower tiers hits, and the write-back into tier 0
succeeds, so the value is returned after the refill. -/
theorem combinedGet_miss_refill_ok (c : PackedCache) (rest : List PackedCache)
    (now : Time) (key : Key) (value : Value) (expires : Time)
    (hmiss : (c.get c.st now key).2 = Except.error CacheErr.cacheMiss)
    (hrec : (combinedGet rest now key).2.2 = Except.ok (value, expires))
    (hset : (c.set (c.get c.st now key).1 now key value (expires - now)).2 =
      none) :
    combinedGet (c :: rest) now key =
      ({ c with st :=
          (c.set (c.get c.st now key).1 now key value (expires - now)).1 } ::
        (combinedGet rest now key).1,
       (Ev.getEv 0 :: (combinedGet rest now key).2.1.map Ev.bump) ++
         [Ev.setEv 0],
       Except.ok (value, expires)) := by
  have hpair : c.get c.st now key =
      ((c.get c.st now key).1, Except.error CacheErr.cacheMiss) := by
    rw [← hmiss]
  have hrecpair : combinedGet rest now key =
      ((combinedGet rest now key).1, (combinedGet rest now key).2.1,
       Except.ok (value, expires)) := by
    rw [← hrec]
  have hsetpair : c.set (c.get c.st now key).1 now key value (expires - now) =
      ((c.set (c.get c.st now key).1 now key value (expires - now)).1,
       none) := by
    rw [← hset]
  conv_lhs => rw [combinedGet, hpair]
  simp only [ne_eq, not_true_eq_false, if_false]
  conv_lhs => rw [hrecpair]
  simp only []
  conv_lhs => rw [hsetpair]

/-- C2: when tier 0 is the memory tier with its maps in lockstep at the
key, its Get misses, and the recursive lookup over the lower tiers
returns a value with expiration `expires`, the combined Get writes the
value back into tier 0 with the remaining lifetime `expires - now` before
returning it; the refilled tier-0 entry never has an expiration later
than `expires`, and when the remaining lifetime is positive the entry is
stored with exactly that value and expiration `expires`. -/
theorem combinedGet_refill_remaining (m : MemoryCache) (rest : List PackedCache)
    (now : Time) (key : Key) (value : Value) (expires : Time)
    (hls : lockstepAt m key)
    (hmiss : (memoryGet m now key).2 = Except.error CacheErr.cacheMiss)
    (hrec : (combinedGet rest now key).2.2 = Except.ok (value, expires)) :
    combinedGet (memoryPacked m :: rest) now key =
      (memoryPacked
          (memorySet (memoryGet m now key).1 now key value (expires - now)).1 ::
        (combinedGet rest now key).1,
       (Ev.getEv 0 :: (combinedGet rest now key).2.1.map Ev.bump) ++ [Ev.setEv 0],
       Except.ok (value, expires)) ∧
    (∀ e2, (memorySet (memoryGet m now key).1 now key value
        (expires - now)).1.expires key = some e2 → e2 ≤ expires) ∧
    (now < expires →
      (memorySet (memoryGet m now key).1 now key value
        (expires - now)).1.values key = some value ∧
      (memorySet (memoryGet m now key).1 now key value
        (expires - now)).1.expires key = some expires) := by
  obtain ⟨hm1v, hm1e⟩ := memoryGet_miss_state m now key hls hmiss
  refine ⟨?_, ?_, ?_⟩
  · exact combinedGet_miss_refill_ok (memoryPacked m) rest now key value expires
      hmiss hrec (memorySet_err _ _ _ _ _)
  · intro e2 h2
    by_cases hd : expires - now ≤ 0
    · rw [memorySet, if_pos hd] at h2
      rw [hm1e] at h2
      cases h2
    · rw [memorySet, if_neg hd] at h2
      simp at h2
      linarith
  · intro hlt
    have hd : ¬ expires - now ≤ 0 := by linarith
    have heq : now + (expires - now) = expires := by linarith
    rw [memorySet, if_neg hd]
    refine ⟨by simp, ?_⟩
    simp [heq]

/-- C2 witness: over an empty memory tier and a lower stub tier holding
the value [7] with expiration 10, a combined Get at time 3 returns the
value and refills the memory tier with remaining lifetime 7, storing
expiration exactly 10. -/
theorem combinedGet_refill_remaining_witness :
    (combinedGet (memoryPacked newMemoryCache :: [tierHit]) 3 "k" =
      (memoryPacked
          (memorySet (memoryGet newMemoryCache 3 "k").1 3 "k" [7]
            ((10 : Time) - 3)).1 ::
        (combinedGet [tierHit] 3 "k").1,
       (Ev.getEv 0 :: (combinedGet [tierHit] 3 "k").2.1.map Ev.bump) ++
         [Ev.setEv 0],
       Except.ok ([7], 10))) ∧
    (∀ e2, (memorySet (memoryGet newMemoryCache 3 "k").1 3 "k" [7]
        ((10 : Time) - 3)).1.expires "k" = some e2 → e2 ≤ 10) ∧
    ((3 : Time) < 10 →
      (memorySet (memoryGet newMemoryCache 3 "k").1 3 "k" [7]
        ((10 : Time) - 3)).1.values "k" = some [7] ∧
      (memorySet (memoryGet newMemoryCache 3 "k").1 3 "k" [7]
        ((10 : Time) - 3)).1.expires "k" = some 10) :=
  combinedGet_refill_remaining newMemoryCache [tierHit] 3 "k" [7] 10
    ⟨fun _ => rfl, fun _ => rfl⟩ rfl rfl

/-- C3 counterexample: with a tier 0 that misses on Get and fails its
Set, over a tier 1 that holds the value [7] expiring at 10, the combined
Get returns the refill-write error instead of the value found in the
lower tier. -/
theorem combinedGet_refill_error_cex :
    (combinedGet [tierRefillFail, tierHit] 0 "k").2.2 =
      Except.error (CacheErr.backend "refill failed") ∧
    (combinedGet [tierRefillFail, tierHit] 0 "k").2.2 ≠
      Except.ok ([7], 10) := by
  refine ⟨rfl, fun h => ?_⟩
  exact Except.noConfusion
    ((rfl : (combinedGet [tierRefillFail, tierHit] 0 "k").2.2 =
      Except.error (CacheErr.backend "refill failed")).symm.trans h)

/-- C3 (amended): when tier 0's Get misses, the recursive lookup over the
lower tiers returns a value, and the synchronous refill write into tier 0
fails, the combined Get surfaces that refill error to the caller instead
of returning the value. -/
theorem combinedGet_refill_error_surfaced (c : PackedCache)
    (rest : List PackedCache) (now : Time) (key : Key) (value : Value)
    (expires : Time) (e : CacheErr)
    (hmiss : (c.get c.st now key).2 = Except.error CacheErr.cacheMiss)
    (hrec : (combinedGet rest now key).2.2 = Except.ok (value, expires))
    (hset : (c.set (c.get c.st now key).1 now key value (expires - now)).2 =
      some e) :
    (combinedGet (c :: rest) now key).2.2 = Except.error e := by
  have hpair : c.get c.st now key =
      ((c.get c.st now key).1, Except.error CacheErr.cacheMiss) := by
    rw [← hmiss]
  have hrecpair : combinedGet rest now key =
      ((combinedGet rest now key).1, (combinedGet rest now key).2.1,
       Except.ok (value, expires)) := by
    rw [← hrec]
  have hsetpair : c.set (c.get c.st now key).1 now key value (expires - now) =
      ((c.set (c.get c.st now key).1 now key value (expires - now)).1,
       some e) := by
    rw [← hset]
  conv_lhs => rw [combinedGet, hpair]
  simp only [ne_eq, not_true_eq_false, if_false]
  conv_lhs => rw [hrecpair]
  simp only []
  conv_lhs => rw [hsetpair]

/-- C3 witness for the amended claim: the concrete two-tier instance of
the counterexample, via the general theorem. -/
theorem combinedGet_refill_error_surfaced_witness :
    (combinedGet (tierRefillFail :: [tierHit]) 0 "k").2.2 =
      Except.error (CacheErr.backend "refill failed") :=
  combinedGet_refill_error_surfaced tierRefillFail [tierHit] 0 "k" [7] 10
    (CacheErr.backend "refill failed") rfl rfl rfl

/-- C4 counterexample: at time 5, Get on an entry with expiration exactly
5 returns a hit with the value and expiration; the claim says an entry
whose expiration equals the current instant is a miss. -/
theorem memoryGet_boundary_cex :
    (memoryGet memAtNow 5 "k").2 = Except.ok ([1], 5) := rfl

/-- C4 (amended): the memory tier's Get returns the stored value and
expiration iff the key is present in both maps with expiration at or
after now — an entry whose expiration equals the current instant is a
hit; when present with expiration strictly before now, the entry is
removed from both maps and Get misses; when absent from either map, Get
misses and leaves the state unchanged. -/
theorem memoryGet_spec (m : MemoryCache) (now : Time) (key : Key) :
    (∀ value expires,
      m.values key = some value → m.expires key = some expires →
      ((now ≤ expires → memoryGet m now key = (m, Except.ok (value, expires))) ∧
       (expires < now → memoryGet m now key =
         ({ values := fun k => if k = key then none else m.values k,
            expires := fun k => if k = key then none else m.expires k },
          Except.error CacheErr.cacheMiss)))) ∧
    ((m.values key = none ∨ m.expires key = none) →
      memoryGet m now key = (m, Except.error CacheErr.cacheMiss)) := by
  constructor
  · intro value expires hv he
    constructor
    · intro hle
      have hlt : ¬ expires < now := by linarith
      simp [memoryGet, hv, he, hlt]
    · intro hlt
      simp [memoryGet, hv, he, hlt]
  · rintro (hv | he)
    · rcases he2 : m.expires key with _ | e <;> simp [memoryGet, hv, he2]
    · rcases hv2 : m.values key with _ | v <;> simp [memoryGet, hv2, he]

/-- C5 counterexample: Set with a non-positive duration is a no-op, so a
Get right after it on a key that was already cached still hits — it does
not miss as the claim states. -/
theorem memorySet_nonpos_cex :
    memorySet memPre 1 "k" [2] (-1) = (memPre, none) ∧
    (memoryGet (memorySet memPre 1 "k" [2] (-1)).1 1 "k").2 =
      Except.ok ([1], 10) :=
  ⟨rfl, rfl⟩

/-- C5 (amended): with a non-positive duration, Set is a no-op that
returns success and leaves the state — hence any later Get — exactly as
it was, so a Get on a key absent from the maps still misses; with a
positive duration, Set succeeds, stores the value with expiration
now + t overwriting any prior entry for the key, and touches no other
key. -/
theorem memorySet_spec (m : MemoryCache) (now : Time) (key : Key)
    (value : Value) (expiration : Duration) :
    (expiration ≤ 0 → memorySet m now key value expiration = (m, none)) ∧
    (0 < expiration →
      (memorySet m now key value expiration).2 = none ∧
      (memorySet m now key value expiration).1.values key = some value ∧
      (memorySet m now key value expiration).1.expires key =
        some (now + expiration) ∧
      (∀ k, k ≠ key →
        (memorySet m now key value expiration).1.values k = m.values k ∧
        (memorySet m now key value expiration).1.expires k = m.expires k)) ∧
    (expiration ≤ 0 → m.values key = none →
      (memoryGet (memorySet m now key value expiration).1 now key).2 =
        Except.error CacheErr.cacheMiss) := by
  refine ⟨?_, ?_, ?_⟩
  · intro h
    rw [memorySet, if_pos h]
  · intro h
    have h2 : ¬ expiration ≤ 0 := by linarith
    rw [memorySet, if_neg h2]
    refine ⟨rfl, by simp, by simp, ?_⟩
    intro k hk
    simp [hk]
  · intro h hv
    rw [memorySet, if_pos h]
    rcases he : m.expires key with _ | e <;> simp [memoryGet, hv, he]

/-- C6 counterexample: Clean at time 5 keeps the entry expiring exactly
at 5; the claim says every entry with expiration at or before now is
removed. -/
theorem memoryClean_boundary_cex :
    (memoryClean memAtNow 5).1.values "k" = some [1] ∧
    (memoryClean memAtNow 5).1.expires "k" = some 5 :=
  ⟨rfl, rfl⟩

/-- C6 (amended): Clean succeeds and removes exactly the entries whose
expiration is strictly before now: such keys are removed from both maps,
a key with expiration at or after now (including exactly now) keeps its
value and expiration unchanged, and a key absent from the expires map
keeps its value entry untouched. -/
theorem memoryClean_spec (m : MemoryCache) (now : Time) (key : Key) :
    (memoryClean m now).2 = none ∧
    (∀ expires, m.expires key = some expires →
      ((expires < now →
         (memoryClean m now).1.values key = none ∧
         (memoryClean m now).1.expires key = none) ∧
       (now ≤ expires →
         (memoryClean m now).1.values key = m.values key ∧
         (memoryClean m now).1.expires key = some expires))) ∧
    (m.expires key = none →
      (memoryClean m now).1.values key = m.values key ∧
      (memoryClean m now).1.expires key = none) := by
  refine ⟨rfl, ?_, ?_⟩
  · intro expires he
    constructor
    · intro hlt
      simp [memoryClean, he, hlt]
    · intro hle
      have hlt : ¬ expires < now := by linarith
      simp [memoryClean, he, hlt]
  · intro he
    simp [memoryClean, he]

/-- The Clean loop in closed form: every tier is cleaned in order, the
new states are the per-tier Clean states, and the collected messages are
the failing tiers' messages in order. -/
theorem combinedCleanLoop_eq (tiers : List PackedCache) (now : Time) :
    combinedCleanLoop tiers now =
      (tiers.map (fun c => { c with st := (c.clean c.st now).1 }),
       (List.range tiers.length).map Ev.cleanEv,
       tiers.filterMap
         (fun c => Option.map errString (c.clean c.st now).2)) := by
  induction tiers with
  | nil => rfl
  | cons c rest ih =>
    rw [combinedCleanLoop]
    have hpair : c.clean c.st now = ((c.clean c.st now).1, (c.clean c.st now).2) :=
      rfl
    rw [hpair]
    simp only []
    rw [ih]
    refine congrArg (fun x => (_ :: _, x)) ?_
    cases h2 : (c.clean c.st now).2 with
    | none =>
      simp [List.range_succ_eq_map, List.map_map, Function.comp_def, Ev.bump,
        List.filterMap_cons, h2]
    | some err =>
      simp [List.range_succ_eq_map, List.map_map, Function.comp_def, Ev.bump,
        List.filterMap_cons, h2]

/-- C7: the combined Clean invokes Clean on every tier in order, earlier
failures notwithstanding; it returns success exactly when every tier's
Clean succeeds, and otherwise a single aggregate error whose message
names the number of failing tiers and joins their messages in order. -/
theorem combinedClean_spec (tiers : List PackedCache) (now : Time) :
    (combinedClean tiers now).2.1 =
      (List.range tiers.length).map Ev.cleanEv ∧
    (combinedClean tiers now).1 =
      tiers.map (fun c => { c with st := (c.clean c.st now).1 }) ∧
    ((combinedClean tiers now).2.2 = none ↔
      ∀ c ∈ tiers, (c.clean c.st now).2 = none) ∧
    (tiers.filterMap (fun c => Option.map errString (c.clean c.st now).2) ≠
        [] →
      (combinedClean tiers now).2.2 =
        some ("cache: " ++
          toString (tiers.filterMap
            (fun c => Option.map errString (c.clean c.st now).2)).length ++
          " error(s)\n" ++
          String.intercalate "\n"
            (tiers.filterMap
              (fun c => Option.map errString (c.clean c.st now).2)))) := by
  refine ⟨?_, ?_, ?_, ?_⟩
  · rw [combinedClean, combinedCleanLoop_eq]
  · rw [combinedClean, combinedCleanLoop_eq]
  · rw [combinedClean, combinedCleanLoop_eq]
    simp only []
    constructor
    · intro h
      by_cases hlen : (tiers.filterMap
          (fun c => Option.map errString (c.clean c.st now).2)).length > 0
      · rw [if_pos hlen] at h
        cases h
      · intro c hc
        have hempty : tiers.filterMap
            (fun c => Option.map errString (c.clean c.st now).2) = [] := by
          cases hfm : tiers.filterMap
              (fun c => Option.map errString (c.clean c.st now).2) with
          | nil => rfl
          | cons a l => exact absurd (by simp [hfm]) hlen
        rw [List.filterMap_eq_nil_iff] at hempty
        have := hempty c hc
        rwa [Option.map_eq_none'] at this
    · intro h
      have hempty : tiers.filterMap
          (fun c => Option.map errString (c.clean c.st now).2) = [] := by
        rw [List.filterMap_eq_nil_iff]
        intro c hc
        rw [Option.map_eq_none']
        exact h c hc
      rw [hempty]
      simp
  · intro hne
    rw [combinedClean, combinedCleanLoop_eq]
    simp only []
    rw [if_pos]
    exact List.length_pos.mpr hne

/-- C7 at the spec's concrete instance: three tiers where only tier 1's
Clean fails; all three tiers are cleaned and the aggregate error mentions
exactly one failure. -/
theorem combinedClean_one_failure_example :
    (combinedClean [tierHit, tierCleanFail, tierBoom] 0).2.2 =
      some "cache: 1 error(s)\ngc failed" ∧
    (combinedClean [tierHit, tierCleanFail, tierBoom] 0).2.1 =
      [Ev.cleanEv 0, Ev.cleanEv 1, Ev.cleanEv 2] := by
  constructor
  · rfl
  · rfl

/-- The combined Set in closed form when every tier's Set succeeds. -/
theorem combinedSet_all_ok (tiers : List PackedCache) (now : Time) (key : Key)
    (value : Value) (expiration : Duration)
    (h : ∀ c ∈ tiers, (c.set c.st now key value expiration).2 = none) :
    combinedSet tiers now key value expiration =
      (tiers.map
        (fun c => { c with st := (c.set c.st now key value expiration).1 }),
       (List.range tiers.length).map Ev.setEv, none) := by
  induction tiers with
  | nil => rfl
  | cons c rest ih =>
    have hc := h c (List.mem_cons_self c rest)
    have hpair : c.set c.st now key value expiration =
        ((c.set c.st now key value expiration).1, none) := by
      rw [← hc]
    rw [combinedSet, hpair]
    simp only []
    rw [ih (fun p hp => h p (List.mem_cons_of_mem c hp))]
    simp [List.range_succ_eq_map, List.map_map, Function.comp_def, Ev.bump]

/-- The combined Set in closed form at the first failing tier: the tiers
before it are written in order, it is attempted and returns its error,
and the tiers after it are not touched. -/
theorem combinedSet_first_err (pre : List PackedCache) (c : PackedCache)
    (post : List PackedCache) (now : Time) (key : Key) (value : Value)
    (expiration : Duration) (e : CacheErr)
    (hpre : ∀ p ∈ pre, (p.set p.st now key value expiration).2 = none)
    (hc : (c.set c.st now key value expiration).2 = some e) :
    combinedSet (pre ++ c :: post) now key value expiration =
      (pre.map
          (fun p => { p with st := (p.set p.st now key value expiration).1 }) ++
        ({ c with st := (c.set c.st now key value expiration).1 } :: post),
       (List.range (pre.length + 1)).map Ev.setEv, some e) := by
  induction pre with
  | nil =>
    have hpair : c.set c.st now key value expiration =
        ((c.set c.st now key value expiration).1, some e) := by
      rw [← hc]
    rw [List.nil_append, combinedSet, hpair]
    simp [List.range_succ_eq_map]
  | cons p pre2 ih =>
    have hp := hpre p (List.mem_cons_self p pre2)
    have hpair : p.set p.st now key value expiration =
        ((p.set p.st now key value expiration).1, none) := by
      rw [← hp]
    rw [List.cons_append, combinedSet, hpair]
    simp only []
    rw [ih (fun q hq => hpre q (List.mem_cons_of_mem p hq))]
    simp [List.range_succ_eq_map, List.map_map, Function.comp_def, Ev.bump]

/-- C8: the combined Set writes to the tiers in list order; when every
tier succeeds it returns success having written them all, and at the
first failing tier it returns that tier's error, having performed the
earlier tiers' writes (left in place, no rollback) and no Set on any
subsequent tier. -/
theorem combinedSet_spec :
    (∀ (tiers : List PackedCache) (now : Time) (key : Key) (value : Value)
      (expiration : Duration),
      (∀ c ∈ tiers, (c.set c.st now key value expiration).2 = none) →
      combinedSet tiers now key value expiration =
        (tiers.map
          (fun c => { c with st := (c.set c.st now key value expiration).1 }),
         (List.range tiers.length).map Ev.setEv, none)) ∧
    (∀ (pre : List PackedCache) (c : PackedCache) (post : List PackedCache)
      (now : Time) (key : Key) (value : Value) (expiration : Duration)
      (e : CacheErr),
      (∀ p ∈ pre, (p.set p.st now key value expiration).2 = none) →
      (c.set c.st now key value expiration).2 = some e →
      combinedSet (pre ++ c :: post) now key value expiration =
        (pre.map
            (fun p =>
              { p with st := (p.set p.st now key value expiration).1 }) ++
          ({ c with st := (c.set c.st now key value expiration).1 } :: post),
         (List.range (pre.length + 1)).map Ev.setEv, some e)) :=
  ⟨fun tiers now key value expiration h =>
      combinedSet_all_ok tiers now key value expiration h,
   fun pre c post now key value expiration e hpre hc =>
      combinedSet_first_err pre c post now key value expiration e hpre hc⟩

/-- C8 at a concrete instance: three tiers where tier 1's Set fails; the
write reaches tiers 0 and 1 only and returns tier 1's error. -/
theorem combinedSet_first_error_example :
    (combinedSet [tierHit, tierSetFail, tierBoom] 0 "k" [1] 10).2.2 =
      some (CacheErr.backend "write failed") ∧
    (combinedSet [tierHit, tierSetFail, tierBoom] 0 "k" [1] 10).2.1 =
      [Ev.setEv 0, Ev.setEv 1] := by
  constructor
  · rfl
  · rfl

/-- Each memory-tier operation keeps the two maps in lockstep at every
key. -/
theorem lockstepAt_applyMemOp (m : MemoryCache) (op : MemOp) (key : Key)
    (h : lockstepAt m key) : lockstepAt (applyMemOp op m) key := by
  cases op with
  | setOp now k2 value expiration =>
    by_cases hd : expiration ≤ 0
    · simpa [lockstepAt, applyMemOp, memorySet, hd] using h
    · by_cases hk : key = k2
      · simp [lockstepAt, applyMemOp, memorySet, hd, hk]
      · simpa [lockstepAt, applyMemOp, memorySet, hd, hk] using h
  | getOp now k2 =>
    rcases hv : m.values k2 with _ | v <;> rcases he : m.expires k2 with _ | e
    · simpa [lockstepAt, applyMemOp, memoryGet, hv, he] using h
    · simpa [lockstepAt, applyMemOp, memoryGet, hv, he] using h
    · simpa [lockstepAt, applyMemOp, memoryGet, hv, he] using h
    · by_cases hlt : e < now
      · by_cases hk : key = k2
        · simp [lockstepAt, applyMemOp, memoryGet, hv, he, hlt, hk]
        · simpa [lockstepAt, applyMemOp, memoryGet, hv, he, hlt, hk] using h
      · simpa [lockstepAt, applyMemOp, memoryGet, hv, he, hlt] using h
  | cleanOp now =>
    rcases he : m.expires key with _ | e
    · simp [lockstepAt, applyMemOp, memoryClean, he, h.mpr he]
    · by_cases hlt : e < now
      · simp [lockstepAt, applyMemOp, memoryClean, he, hlt]
      · have hvn : m.values key ≠ none := fun hv0 => by
          have h2 := h.mp hv0
          rw [he] at h2
          cases h2
        simp [lockstepAt, applyMemOp, memoryClean, he, hlt, hvn]

/-- C10: after any sequence of Set, Get and Clean operations on a fresh
memory tier, a key is present in the values map iff it is present in the
expires map — the two internal maps stay in lockstep. -/
theorem memory_maps_lockstep (ops : List MemOp) (key : Key) :
    (applyMemOps ops newMemoryCache).values key = none ↔
    (applyMemOps ops newMemoryCache).expires key = none := by
  suffices h : ∀ m : MemoryCache, lockstepAt m key →
      lockstepAt (applyMemOps ops m) key from
    h newMemoryCache ⟨fun _ => rfl, fun _ => rfl⟩
  induction ops with
  | nil => exact fun m hm => hm
  | cons op ops2 ih =>
    exact fun m hm => ih (applyMemOp op m) (lockstepAt_applyMemOp m op key hm)

end Aecache
